import Mathlib

/-!
Verification of the `GearMath` module (src/gear_math.js).

The module is a stateless library of six pure functions over IEEE doubles.
We embed it at two levels:

* an idealized real-number semantics (`normalizeAngle`, `planetaryRingTeeth`,
  `planetaryRingSpeed`, `calculateRingPhaseFromPlanet`, `calculateChildPhase`,
  `calculateInternalMeshPhase`), where the JavaScript `%` operator on a
  positive divisor is modelled exactly by truncated-division remainder
  (`jsRem` below) — on finite inputs with nonzero divisors the JavaScript
  code computes exactly these expressions up to rounding;

* a special-value semantics over `JsVal` (finite real, `+∞`, `-∞`, `NaN`)
  capturing IEEE-754 propagation of infinities and NaN (signed zeros are not
  distinguished; `JsVal.fin 0` behaves as `+0`), used for the claims about
  division by a zero teeth count.
-/

noncomputable section

/-- Truncation toward zero, as JavaScript truncates the quotient when
computing the `%` remainder. -/
def jsTrunc (x : ℝ) : ℤ :=
  if x < 0 then ⌈x⌉ else ⌊x⌋

/-- JavaScript remainder `a % b` on finite reals with `b ≠ 0`:
`a - b * trunc (a / b)` (the result has the sign of the dividend). -/
def jsRem (a b : ℝ) : ℝ :=
  a - b * (jsTrunc (a / b) : ℝ)

/-- GearMath.normalizeAngle: `angle = angle % (2*Math.PI);
if (angle < 0) angle += 2*Math.PI; return angle;`. -/
def normalizeAngle (angle : ℝ) : ℝ :=
  let a := jsRem angle (2 * Real.pi)
  if a < 0 then a + 2 * Real.pi else a

/-- GearMath.planetaryRingTeeth: `sunTeeth + 2 * planetTeeth`. -/
def planetaryRingTeeth (sunTeeth planetTeeth : ℝ) : ℝ :=
  sunTeeth + 2 * planetTeeth

/-- GearMath.planetaryRingSpeed:
`((sunTeeth + ringTeeth) * carrierOmega - sunTeeth * sunOmega) / ringTeeth`. -/
def planetaryRingSpeed (sunOmega carrierOmega sunTeeth ringTeeth : ℝ) : ℝ :=
  ((sunTeeth + ringTeeth) * carrierOmega - sunTeeth * sunOmega) / ringTeeth

/-- GearMath.calculateRingPhaseFromPlanet: with
`halfToothPlanet = π / planetTeeth` and the teeth quotient
`planetTeeth / ringTeeth`, the offset
`(planetPhase - halfToothPlanet) * (planetTeeth / ringTeeth)
 + meshAngle * (1 - planetTeeth / ringTeeth)`, normalized. -/
def calculateRingPhaseFromPlanet (planetPhase meshAngle planetTeeth ringTeeth : ℝ) : ℝ :=
  normalizeAngle ((planetPhase - Real.pi / planetTeeth) * (planetTeeth / ringTeeth) +
    meshAngle * (1 - planetTeeth / ringTeeth))

/-- GearMath.calculateChildPhase: with `halfTooth = π / childTeeth` and the
teeth quotient `parentTeeth / childTeeth`, the offset
`halfTooth - π - meshAngle * (1 + parentTeeth / childTeeth)
 - parentPhase * (parentTeeth / childTeeth)`, normalized. -/
def calculateChildPhase (parentPhase meshAngle parentTeeth childTeeth : ℝ) : ℝ :=
  normalizeAngle (Real.pi / childTeeth - Real.pi -
    meshAngle * (1 + parentTeeth / childTeeth) -
    parentPhase * (parentTeeth / childTeeth))

/-- GearMath.calculateInternalMeshPhase: with `halfTooth = π / childTeeth` and
the teeth quotient `parentTeeth / childTeeth`, the offset
`-halfTooth + meshAngle * (parentTeeth / childTeeth - 1)
 + parentPhase * (parentTeeth / childTeeth)`, normalized. -/
def calculateInternalMeshPhase (parentPhase meshAngle parentTeeth childTeeth : ℝ) : ℝ :=
  normalizeAngle (-(Real.pi / childTeeth) +
    meshAngle * (parentTeeth / childTeeth - 1) +
    parentPhase * (parentTeeth / childTeeth))

lemma two_pi_pos : (0 : ℝ) < 2 * Real.pi := by positivity

lemma two_pi_ne_zero : (2 * Real.pi : ℝ) ≠ 0 := ne_of_gt two_pi_pos

/-- Closed form for `normalizeAngle`: it is `2π` times the fractional part of
`x / (2π)` (truncated remainder plus the one conditional fix-up equals the
floor-based remainder). -/
lemma normalizeAngle_eq_fract (x : ℝ) :
    normalizeAngle x = 2 * Real.pi * Int.fract (x / (2 * Real.pi)) := by
  have hT : (0 : ℝ) < 2 * Real.pi := two_pi_pos
  have hx : x = 2 * Real.pi * (x / (2 * Real.pi)) := by
    field_simp
  set q : ℝ := x / (2 * Real.pi) with hq
  unfold normalizeAngle jsRem jsTrunc
  by_cases hneg : q < 0
  · by_cases hfr : Int.fract q = 0
    · -- q is an exact (negative) integer: remainder is 0, no fix-up.
      have hceil : (⌈q⌉ : ℝ) = q := by
        have hfl : (⌊q⌋ : ℝ) = q := by
          have := Int.fract q
          have h1 : q - ⌊q⌋ = 0 := hfr
          linarith
        have : ⌈q⌉ = ⌊q⌋ := by
          rw [Int.ceil_eq_iff]
          constructor
          · rw [hfl]
            linarith
          · rw [hfl]
        rw [this, hfl]
      simp only [hq, if_pos hneg]
      rw [hceil]
      have hz : x - 2 * Real.pi * q = 0 := by
        rw [hx]
        ring
      rw [hz, hfr]
      simp
    · -- q negative and not an integer: remainder is negative, fixed by +2π.
      have hflt : (⌊q⌋ : ℝ) < q := by
        rcases lt_or_eq_of_le (Int.floor_le q) with h | h
        · exact h
        · exact absurd (by unfold Int.fract; rw [h]; exact sub_self q) hfr
      have hceil : ⌈q⌉ = ⌊q⌋ + 1 := by
        rw [Int.ceil_eq_iff]
        constructor
        · push_cast
          linarith
        · push_cast
          linarith [le_of_lt (Int.lt_floor_add_one q)]
      simp only [hq, if_pos hneg]
      rw [hceil]
      have hrem : x - 2 * Real.pi * ((⌊q⌋ : ℝ) + 1) =
          2 * Real.pi * (Int.fract q - 1) := by
        rw [hx]
        unfold Int.fract
        ring
      rw [show ((⌊q⌋ + 1 : ℤ) : ℝ) = (⌊q⌋ : ℝ) + 1 by push_cast; ring, hrem]
      have hlt : 2 * Real.pi * (Int.fract q - 1) < 0 := by
        have : Int.fract q < 1 := Int.fract_lt_one q
        nlinarith
      rw [if_pos hlt]
      ring
  · -- q ≥ 0: truncation is floor, remainder already in [0, 2π).
    simp only [hq, if_neg hneg]
    have hrem : x - 2 * Real.pi * (⌊q⌋ : ℝ) = 2 * Real.pi * Int.fract q := by
      rw [hx]
      unfold Int.fract
      ring
    rw [hrem]
    have hnn : 0 ≤ 2 * Real.pi * Int.fract q := by
      have := Int.fract_nonneg q
      positivity
    rw [if_neg (not_lt.mpr hnn)]

lemma normalizeAngle_nonneg (x : ℝ) : 0 ≤ normalizeAngle x := by
  rw [normalizeAngle_eq_fract]
  have := Int.fract_nonneg (x / (2 * Real.pi))
  positivity

lemma normalizeAngle_lt_two_pi (x : ℝ) : normalizeAngle x < 2 * Real.pi := by
  rw [normalizeAngle_eq_fract]
  have h1 : Int.fract (x / (2 * Real.pi)) < 1 := Int.fract_lt_one _
  nlinarith [two_pi_pos]

lemma normalizeAngle_sub_eq_int_mul (x : ℝ) :
    ∃ k : ℤ, normalizeAngle x = x + 2 * Real.pi * k := by
  refine ⟨-⌊x / (2 * Real.pi)⌋, ?_⟩
  rw [normalizeAngle_eq_fract]
  unfold Int.fract
  have hx : x = 2 * Real.pi * (x / (2 * Real.pi)) := by field_simp
  push_cast
  nlinarith [hx]

lemma normalizeAngle_add_int_mul (x : ℝ) (k : ℤ) :
    normalizeAngle (x + 2 * Real.pi * k) = normalizeAngle x := by
  rw [normalizeAngle_eq_fract, normalizeAngle_eq_fract]
  have h : (x + 2 * Real.pi * k) / (2 * Real.pi) = x / (2 * Real.pi) + k := by
    field_simp
    ring
  rw [h, Int.fract_add_int]

lemma normalizeAngle_eq_self {x : ℝ} (h0 : 0 ≤ x) (h2 : x < 2 * Real.pi) :
    normalizeAngle x = x := by
  rw [normalizeAngle_eq_fract]
  have hfr : Int.fract (x / (2 * Real.pi)) = x / (2 * Real.pi) := by
    refine Int.fract_eq_self.2 ⟨by positivity, ?_⟩
    rw [div_lt_one two_pi_pos]
    exact h2
  rw [hfr]
  field_simp

/-- JavaScript number values, coarsely: a finite real, `+Infinity`,
`-Infinity`, or `NaN`. Signed zeros are not distinguished; `fin 0` has the
behavior of `+0`. -/
inductive JsVal : Type
  | fin (x : ℝ)
  | posInf
  | negInf
  | nan

/-- IEEE negation. -/
def JsVal.neg : JsVal → JsVal
  | .fin x => .fin (-x)
  | .posInf => .negInf
  | .negInf => .posInf
  | .nan => .nan

/-- IEEE addition on special values; exact real addition on finite values. -/
def JsVal.add : JsVal → JsVal → JsVal
  | .fin x, .fin y => .fin (x + y)
  | .fin _, .posInf => .posInf
  | .fin _, .negInf => .negInf
  | .fin _, .nan => .nan
  | .posInf, .fin _ => .posInf
  | .posInf, .posInf => .posInf
  | .posInf, .negInf => .nan
  | .posInf, .nan => .nan
  | .negInf, .fin _ => .negInf
  | .negInf, .posInf => .nan
  | .negInf, .negInf => .nan
  | .negInf, .nan => .nan
  | .nan, _ => .nan

/-- IEEE subtraction on special values; exact real subtraction on finite
values. -/
def JsVal.sub : JsVal → JsVal → JsVal
  | .fin x, .fin y => .fin (x - y)
  | .fin _, .posInf => .negInf
  | .fin _, .negInf => .posInf
  | .fin _, .nan => .nan
  | .posInf, .fin _ => .posInf
  | .posInf, .posInf => .nan
  | .posInf, .negInf => .posInf
  | .posInf, .nan => .nan
  | .negInf, .fin _ => .negInf
  | .negInf, .posInf => .negInf
  | .negInf, .negInf => .nan
  | .negInf, .nan => .nan
  | .nan, _ => .nan

/-- IEEE multiplication on special values (`0 × ∞ = NaN`); exact real
multiplication on finite values. -/
def JsVal.mul : JsVal → JsVal → JsVal
  | .fin x, .fin y => .fin (x * y)
  | .fin x, .posInf => if x = 0 then .nan else if 0 < x then .posInf else .negInf
  | .fin x, .negInf => if x = 0 then .nan else if 0 < x then .negInf else .posInf
  | .fin _, .nan => .nan
  | .posInf, .fin y => if y = 0 then .nan else if 0 < y then .posInf else .negInf
  | .posInf, .posInf => .posInf
  | .posInf, .negInf => .negInf
  | .posInf, .nan => .nan
  | .negInf, .fin y => if y = 0 then .nan else if 0 < y then .negInf else .posInf
  | .negInf, .posInf => .negInf
  | .negInf, .negInf => .posInf
  | .negInf, .nan => .nan
  | .nan, _ => .nan

/-- IEEE division on special values: finite `x / 0` is `NaN` when `x = 0`
(`0/0`), otherwise `±∞` (the divisor `fin 0` is a `+0`); `∞ / ∞ = NaN`;
`x / ∞ = 0`. Exact real division on finite values with nonzero divisor. -/
def JsVal.div : JsVal → JsVal → JsVal
  | .fin x, .fin y =>
      if y = 0 then (if x = 0 then .nan else if 0 < x then .posInf else .negInf)
      else .fin (x / y)
  | .fin _, .posInf => .fin 0
  | .fin _, .negInf => .fin 0
  | .fin _, .nan => .nan
  | .posInf, .fin y => if 0 ≤ y then .posInf else .negInf
  | .posInf, .posInf => .nan
  | .posInf, .negInf => .nan
  | .posInf, .nan => .nan
  | .negInf, .fin y => if 0 ≤ y then .negInf else .posInf
  | .negInf, .posInf => .nan
  | .negInf, .negInf => .nan
  | .negInf, .nan => .nan
  | .nan, _ => .nan

/-- JavaScript `%` (truncated remainder): `NaN` when the dividend is
infinite or the divisor is zero; the dividend itself when the divisor is
infinite; `jsRem` on finite operands. -/
def JsVal.rem : JsVal → JsVal → JsVal
  | .fin x, .fin y => if y = 0 then .nan else .fin (jsRem x y)
  | .fin x, .posInf => .fin x
  | .fin x, .negInf => .fin x
  | .fin _, .nan => .nan
  | .posInf, _ => .nan
  | .negInf, _ => .nan
  | .nan, _ => .nan

/-- JavaScript comparison `v < 0` as a boolean: false on `NaN`. -/
def JsVal.ltZero : JsVal → Bool
  | .fin x => decide (x < 0)
  | .posInf => false
  | .negInf => true
  | .nan => false

/-- GearMath.normalizeAngle under JavaScript special-value semantics:
`angle = angle % (2*Math.PI); if (angle < 0) angle += 2*Math.PI;
return angle;`. -/
def jsNormalizeAngle (angle : JsVal) : JsVal :=
  let a := JsVal.rem angle (JsVal.fin (2 * Real.pi))
  if a.ltZero then JsVal.add a (JsVal.fin (2 * Real.pi)) else a

/-- GearMath.planetaryRingSpeed under JavaScript special-value semantics:
`((sunTeeth + ringTeeth) * carrierOmega - sunTeeth * sunOmega) / ringTeeth`. -/
def jsPlanetaryRingSpeed (sunOmega carrierOmega sunTeeth ringTeeth : JsVal) : JsVal :=
  JsVal.div
    (JsVal.sub (JsVal.mul (JsVal.add sunTeeth ringTeeth) carrierOmega)
      (JsVal.mul sunTeeth sunOmega))
    ringTeeth

/-- GearMath.calculateChildPhase under JavaScript special-value semantics:
`((halfTooth - π) - meshAngle * (1 + parentTeeth / childTeeth))
 - parentPhase * (parentTeeth / childTeeth)`, normalized, with
`halfTooth = π / childTeeth`. -/
def jsCalculateChildPhase (parentPhase meshAngle parentTeeth childTeeth : JsVal) : JsVal :=
  jsNormalizeAngle
    (JsVal.sub
      (JsVal.sub
        (JsVal.sub (JsVal.div (JsVal.fin Real.pi) childTeeth) (JsVal.fin Real.pi))
        (JsVal.mul meshAngle (JsVal.add (JsVal.fin 1) (JsVal.div parentTeeth childTeeth))))
      (JsVal.mul parentPhase (JsVal.div parentTeeth childTeeth)))

/-- GearMath.calculateInternalMeshPhase under JavaScript special-value
semantics: `((-halfTooth) + meshAngle * (parentTeeth / childTeeth - 1))
 + parentPhase * (parentTeeth / childTeeth)`, normalized, with
`halfTooth = π / childTeeth`. -/
def jsCalculateInternalMeshPhase (parentPhase meshAngle parentTeeth childTeeth : JsVal) : JsVal :=
  jsNormalizeAngle
    (JsVal.add
      (JsVal.add
        (JsVal.neg (JsVal.div (JsVal.fin Real.pi) childTeeth))
        (JsVal.mul meshAngle (JsVal.sub (JsVal.div parentTeeth childTeeth) (JsVal.fin 1))))
      (JsVal.mul parentPhase (JsVal.div parentTeeth childTeeth)))

lemma JsVal.div_fin_fin {x y : ℝ} (hy : y ≠ 0) :
    JsVal.div (JsVal.fin x) (JsVal.fin y) = JsVal.fin (x / y) := by
  simp [JsVal.div, hy]

lemma JsVal.rem_fin_fin {x y : ℝ} (hy : y ≠ 0) :
    JsVal.rem (JsVal.fin x) (JsVal.fin y) = JsVal.fin (jsRem x y) := by
  simp [JsVal.rem, hy]

/-- On a finite input, the special-value semantics of `normalizeAngle`
agrees with the real-number semantics. -/
lemma jsNormalizeAngle_fin (x : ℝ) :
    jsNormalizeAngle (JsVal.fin x) = JsVal.fin (normalizeAngle x) := by
  unfold jsNormalizeAngle normalizeAngle
  rw [JsVal.rem_fin_fin two_pi_ne_zero]
  by_cases h : jsRem x (2 * Real.pi) < 0
  · simp [JsVal.ltZero, JsVal.add, h]
  · simp [JsVal.ltZero, JsVal.add, h]

/-- On finite inputs with a nonzero child teeth count, the special-value
semantics of `calculateChildPhase` agrees with the real-number semantics. -/
lemma jsCalculateChildPhase_fin (p m pt ct : ℝ) (h : ct ≠ 0) :
    jsCalculateChildPhase (JsVal.fin p) (JsVal.fin m) (JsVal.fin pt) (JsVal.fin ct) =
      JsVal.fin (calculateChildPhase p m pt ct) := by
  unfold jsCalculateChildPhase calculateChildPhase
  rw [JsVal.div_fin_fin h, JsVal.div_fin_fin h]
  simp [JsVal.sub, JsVal.add, JsVal.mul, jsNormalizeAngle_fin]

/-- On finite inputs with a nonzero child teeth count, the special-value
semantics of `calculateInternalMeshPhase` agrees with the real-number
semantics. -/
lemma jsCalculateInternalMeshPhase_fin (p m pt ct : ℝ) (h : ct ≠ 0) :
    jsCalculateInternalMeshPhase (JsVal.fin p) (JsVal.fin m) (JsVal.fin pt) (JsVal.fin ct) =
      JsVal.fin (calculateInternalMeshPhase p m pt ct) := by
  unfold jsCalculateInternalMeshPhase calculateInternalMeshPhase
  rw [JsVal.div_fin_fin h, JsVal.div_fin_fin h]
  simp [JsVal.neg, JsVal.sub, JsVal.add, JsVal.mul, jsNormalizeAngle_fin]

/-- Claim C2: `normalizeAngle` maps every real to a value in `[0, 2π)` that
is congruent to the input modulo `2π`, and shifting the input by any integer
multiple of `2π` does not change the result. -/
theorem c2_normalizeAngle_contract :
    ∀ x : ℝ, (0 ≤ normalizeAngle x ∧ normalizeAngle x < 2 * Real.pi) ∧
      (∃ k : ℤ, normalizeAngle x = x + 2 * Real.pi * k) ∧
      ∀ k : ℤ, normalizeAngle (x + 2 * Real.pi * k) = normalizeAngle x := by
  intro x
  exact ⟨⟨normalizeAngle_nonneg x, normalizeAngle_lt_two_pi x⟩,
    normalizeAngle_sub_eq_int_mul x, fun k => normalizeAngle_add_int_mul x k⟩

/-- Claim C3: `planetaryRingSpeed` computes
`((sunTeeth + ringTeeth) * carrierOmega - sunTeeth * sunOmega) / ringTeeth`,
and in particular is `0` at `(0, 0, 30, 70)` and `(-30*10)/70` at
`(10, 0, 30, 70)`. -/
theorem c3_planetaryRingSpeed_formula :
    (∀ sunOmega carrierOmega sunTeeth ringTeeth : ℝ, ringTeeth ≠ 0 →
      planetaryRingSpeed sunOmega carrierOmega sunTeeth ringTeeth =
        ((sunTeeth + ringTeeth) * carrierOmega - sunTeeth * sunOmega) / ringTeeth) ∧
    planetaryRingSpeed 0 0 30 70 = 0 ∧
    planetaryRingSpeed 10 0 30 70 = (-30 * 10) / 70 := by
  refine ⟨fun s c st rt _ => rfl, ?_, ?_⟩
  · unfold planetaryRingSpeed
    norm_num
  · unfold planetaryRingSpeed
    norm_num

/-- Witness for C3 at `(1, 2, 30, 70)`. -/
theorem c3_planetaryRingSpeed_formula_witness :
    (70 : ℝ) ≠ 0 ∧
      planetaryRingSpeed 1 2 30 70 = ((30 + 70) * 2 - 30 * 1) / 70 :=
  ⟨by norm_num, c3_planetaryRingSpeed_formula.1 1 2 30 70 (by norm_num)⟩

/-- Claim C9: when sun and carrier rotate at the same speed the ring also
rotates at that speed — solid-body rotation is a fixed point of the
planetary constraint. -/
theorem c9_solid_body_fixed_point :
    ∀ omega sunTeeth ringTeeth : ℝ, ringTeeth ≠ 0 →
      planetaryRingSpeed omega omega sunTeeth ringTeeth = omega := by
  intro omega st rt h
  unfold planetaryRingSpeed
  field_simp
  ring

/-- Witness for C9 at `omega = 5`, `sunTeeth = 30`, `ringTeeth = 70`. -/
theorem c9_solid_body_fixed_point_witness :
    (70 : ℝ) ≠ 0 ∧ planetaryRingSpeed 5 5 30 70 = 5 :=
  ⟨by norm_num, c9_solid_body_fixed_point 5 30 70 (by norm_num)⟩

/-- Claim C10: `normalizeAngle` is idempotent, and it is the identity on any
input already in `[0, 2π)`. -/
theorem c10_normalizeAngle_idempotent :
    ∀ x : ℝ, normalizeAngle (normalizeAngle x) = normalizeAngle x ∧
      (0 ≤ x → x < 2 * Real.pi → normalizeAngle x = x) := by
  intro x
  refine ⟨?_, fun h0 h2 => normalizeAngle_eq_self h0 h2⟩
  exact normalizeAngle_eq_self (normalizeAngle_nonneg x) (normalizeAngle_lt_two_pi x)

/-- Witness for C10 at `x = 1` (which lies in `[0, 2π)` since `π > 3`). -/
theorem c10_normalizeAngle_idempotent_witness :
    normalizeAngle (normalizeAngle 1) = normalizeAngle 1 ∧ normalizeAngle 1 = 1 :=
  ⟨(c10_normalizeAngle_idempotent 1).1,
    (c10_normalizeAngle_idempotent 1).2 (by norm_num)
      (by nlinarith [Real.pi_gt_three])⟩

/-- Claim C4: `calculateChildPhase` computes the normalized offset
`halfTooth - π - meshAngle * (1 + r) - parentPhase * r` with
`r = parentTeeth / childTeeth` and `halfTooth = π / childTeeth`. -/
theorem c4_calculateChildPhase_formula :
    ∀ parentPhase meshAngle parentTeeth childTeeth : ℝ, childTeeth ≠ 0 →
      calculateChildPhase parentPhase meshAngle parentTeeth childTeeth =
        normalizeAngle (Real.pi / childTeeth - Real.pi -
          meshAngle * (1 + parentTeeth / childTeeth) -
          parentPhase * (parentTeeth / childTeeth)) :=
  fun _ _ _ _ _ => rfl

/-- Witness for C4 at `(0, 0, 30, 20)`. -/
theorem c4_calculateChildPhase_formula_witness :
    (20 : ℝ) ≠ 0 ∧
      calculateChildPhase 0 0 30 20 =
        normalizeAngle (Real.pi / 20 - Real.pi - 0 * (1 + 30 / 20) - 0 * (30 / 20)) :=
  ⟨by norm_num, c4_calculateChildPhase_formula 0 0 30 20 (by norm_num)⟩

/-- Claim C5: `calculateInternalMeshPhase` computes the normalized offset
`-halfTooth + meshAngle * (r - 1) + parentPhase * r` with
`r = parentTeeth / childTeeth` and `halfTooth = π / childTeeth`. -/
theorem c5_calculateInternalMeshPhase_formula :
    ∀ parentPhase meshAngle parentTeeth childTeeth : ℝ, childTeeth ≠ 0 →
      calculateInternalMeshPhase parentPhase meshAngle parentTeeth childTeeth =
        normalizeAngle (-(Real.pi / childTeeth) +
          meshAngle * (parentTeeth / childTeeth - 1) +
          parentPhase * (parentTeeth / childTeeth)) :=
  fun _ _ _ _ _ => rfl

/-- Witness for C5 at `(0, 0, 70, 20)`. -/
theorem c5_calculateInternalMeshPhase_formula_witness :
    (20 : ℝ) ≠ 0 ∧
      calculateInternalMeshPhase 0 0 70 20 =
        normalizeAngle (-(Real.pi / 20) + 0 * (70 / 20 - 1) + 0 * (70 / 20)) :=
  ⟨by norm_num, c5_calculateInternalMeshPhase_formula 0 0 70 20 (by norm_num)⟩

/-- Claim C6: `calculateRingPhaseFromPlanet` computes the normalized offset
`(planetPhase - halfToothPlanet) * r + meshAngle * (1 - r)` with
`r = planetTeeth / ringTeeth` and `halfToothPlanet = π / planetTeeth`. -/
theorem c6_calculateRingPhaseFromPlanet_formula :
    ∀ planetPhase meshAngle planetTeeth ringTeeth : ℝ,
      planetTeeth ≠ 0 → ringTeeth ≠ 0 →
      calculateRingPhaseFromPlanet planetPhase meshAngle planetTeeth ringTeeth =
        normalizeAngle ((planetPhase - Real.pi / planetTeeth) * (planetTeeth / ringTeeth) +
          meshAngle * (1 - planetTeeth / ringTeeth)) :=
  fun _ _ _ _ _ _ => rfl

/-- Witness for C6 at `(0, 0, 20, 70)`. -/
theorem c6_calculateRingPhaseFromPlanet_formula_witness :
    ((20 : ℝ) ≠ 0 ∧ (70 : ℝ) ≠ 0) ∧
      calculateRingPhaseFromPlanet 0 0 20 70 =
        normalizeAngle ((0 - Real.pi / 20) * (20 / 70) + 0 * (1 - 20 / 70)) :=
  ⟨⟨by norm_num, by norm_num⟩,
    c6_calculateRingPhaseFromPlanet_formula 0 0 20 70 (by norm_num) (by norm_num)⟩

lemma fract_neg_one_eighth : Int.fract ((-(1 / 8) : ℝ)) = 7 / 8 := by
  have hfl : ⌊(-(1 / 8) : ℝ)⌋ = -1 := by
    rw [Int.floor_eq_iff]
    constructor
    · norm_num
    · norm_num
  unfold Int.fract
  rw [hfl]
  norm_num

lemma fract_three_halves : Int.fract ((3 / 2 : ℝ)) = 1 / 2 := by
  have hfl : ⌊(3 / 2 : ℝ)⌋ = 1 := by
    rw [Int.floor_eq_iff]
    constructor
    · norm_num
    · norm_num
  unfold Int.fract
  rw [hfl]
  norm_num

lemma normalizeAngle_neg_pi_div_four :
    normalizeAngle (-(Real.pi / 4)) = 7 * Real.pi / 4 := by
  have harg : (-(Real.pi / 4)) / (2 * Real.pi) = -(1 / 8) := by
    rw [div_eq_iff two_pi_ne_zero]
    ring
  rw [normalizeAngle_eq_fract, harg, fract_neg_one_eighth]
  ring

lemma normalizeAngle_three_pi :
    normalizeAngle (3 * Real.pi) = Real.pi := by
  have harg : (3 * Real.pi) / (2 * Real.pi) = 3 / 2 := by
    rw [div_eq_iff two_pi_ne_zero]
    ring
  rw [normalizeAngle_eq_fract, harg, fract_three_halves]
  ring

/-- Claim C1 (refuted): the documented round trip fails. At
`planetPhase = 0`, `meshAngle = 0`, `planetTeeth = 2`, `ringTeeth = 4`,
`calculateRingPhaseFromPlanet` gives `7π/4`, and feeding that ring phase
into the forward relation `calculateInternalMeshPhase` yields `π`, which is
not congruent to the original planet phase `0` modulo `2π`: the two formulas
are not algebraic inverses. -/
theorem c1_roundtrip_fails :
    calculateInternalMeshPhase (calculateRingPhaseFromPlanet 0 0 2 4) 0 4 2 = Real.pi ∧
    ¬ ∃ k : ℤ,
      calculateInternalMeshPhase (calculateRingPhaseFromPlanet 0 0 2 4) 0 4 2 =
        0 + 2 * Real.pi * k := by
  have h1 : calculateRingPhaseFromPlanet 0 0 2 4 = normalizeAngle (-(Real.pi / 4)) := by
    unfold calculateRingPhaseFromPlanet
    congr 1
    ring
  have h2 : calculateInternalMeshPhase (7 * Real.pi / 4) 0 4 2 =
      normalizeAngle (3 * Real.pi) := by
    unfold calculateInternalMeshPhase
    congr 1
    ring
  have hval : calculateInternalMeshPhase (calculateRingPhaseFromPlanet 0 0 2 4) 0 4 2 =
      Real.pi := by
    rw [h1, normalizeAngle_neg_pi_div_four, h2, normalizeAngle_three_pi]
  refine ⟨hval, ?_⟩
  rintro ⟨k, hk⟩
  rw [hval] at hk
  have hodd : Real.pi * 1 = Real.pi * (2 * k) := by
    rw [zero_add] at hk
    linarith
  have h12 : (1 : ℝ) = 2 * k := mul_left_cancel₀ Real.pi_ne_zero hodd
  have h12z : (1 : ℤ) = 2 * k := by exact_mod_cast h12
  omega

/-- Counterexample to C7: with finite inputs `parentPhase = 0`,
`meshAngle = 0`, `parentTeeth = 1`, `childTeeth = 0`, the JavaScript
semantics of `calculateChildPhase` produces `NaN` (via `π / 0 = +∞` and
`0 × ∞ = NaN`), which is not a finite value in `[0, 2π)`. -/
theorem c7_counterexample :
    jsCalculateChildPhase (JsVal.fin 0) (JsVal.fin 0) (JsVal.fin 1) (JsVal.fin 0) =
      JsVal.nan ∧
    ¬ ∃ y : ℝ,
      jsCalculateChildPhase (JsVal.fin 0) (JsVal.fin 0) (JsVal.fin 1) (JsVal.fin 0) =
        JsVal.fin y ∧ 0 ≤ y ∧ y < 2 * Real.pi := by
  have hnan : jsCalculateChildPhase (JsVal.fin 0) (JsVal.fin 0) (JsVal.fin 1)
      (JsVal.fin 0) = JsVal.nan := by
    unfold jsCalculateChildPhase jsNormalizeAngle
    simp [JsVal.div, JsVal.sub, JsVal.add, JsVal.mul, JsVal.rem, JsVal.ltZero,
      Real.pi_ne_zero, Real.pi_pos]
  refine ⟨hnan, ?_⟩
  rintro ⟨y, hy, -⟩
  rw [hnan] at hy
  exact JsVal.noConfusion hy

/-- Claim C7 as amended: for finite inputs with a nonzero `childTeeth`,
`calculateChildPhase` and `calculateInternalMeshPhase` each return a finite
value in `[0, 2π)` (with `childTeeth = 0` the JavaScript semantics instead
produces `NaN`, see the counterexample). -/
theorem c7_range_amended :
    ∀ parentPhase meshAngle parentTeeth childTeeth : ℝ, childTeeth ≠ 0 →
      (∃ y : ℝ,
        jsCalculateChildPhase (JsVal.fin parentPhase) (JsVal.fin meshAngle)
          (JsVal.fin parentTeeth) (JsVal.fin childTeeth) = JsVal.fin y ∧
        0 ≤ y ∧ y < 2 * Real.pi) ∧
      (∃ y : ℝ,
        jsCalculateInternalMeshPhase (JsVal.fin parentPhase) (JsVal.fin meshAngle)
          (JsVal.fin parentTeeth) (JsVal.fin childTeeth) = JsVal.fin y ∧
        0 ≤ y ∧ y < 2 * Real.pi) := by
  intro p m pt ct h
  constructor
  · exact ⟨calculateChildPhase p m pt ct, jsCalculateChildPhase_fin p m pt ct h,
      normalizeAngle_nonneg _, normalizeAngle_lt_two_pi _⟩
  · exact ⟨calculateInternalMeshPhase p m pt ct,
      jsCalculateInternalMeshPhase_fin p m pt ct h,
      normalizeAngle_nonneg _, normalizeAngle_lt_two_pi _⟩

/-- Witness for the amended C7 at `(0, 0, 30, 20)`. -/
theorem c7_range_amended_witness :
    (∃ y : ℝ,
      jsCalculateChildPhase (JsVal.fin 0) (JsVal.fin 0) (JsVal.fin 30)
        (JsVal.fin 20) = JsVal.fin y ∧ 0 ≤ y ∧ y < 2 * Real.pi) ∧
    (∃ y : ℝ,
      jsCalculateInternalMeshPhase (JsVal.fin 0) (JsVal.fin 0) (JsVal.fin 30)
        (JsVal.fin 20) = JsVal.fin y ∧ 0 ≤ y ∧ y < 2 * Real.pi) :=
  c7_range_amended 0 0 30 20 (by norm_num)

lemma JsVal.div_fin_zero (x : ℝ) :
    JsVal.div (JsVal.fin x) (JsVal.fin 0) = JsVal.posInf ∨
    JsVal.div (JsVal.fin x) (JsVal.fin 0) = JsVal.negInf ∨
    JsVal.div (JsVal.fin x) (JsVal.fin 0) = JsVal.nan := by
  by_cases h0 : x = 0
  · right; right
    simp [JsVal.div, h0]
  · by_cases hpos : 0 < x
    · left
      simp [JsVal.div, h0, hpos]
    · right; left
      simp [JsVal.div, h0, hpos]

/-- Claim C8: `planetaryRingSpeed` with a zero ring teeth count follows
floating-point division semantics — the result is `+∞`, `-∞`, or `NaN`
(never a raised error: the semantics is a total function into `JsVal`). -/
theorem c8_ringSpeed_div_zero :
    ∀ sunOmega carrierOmega sunTeeth : ℝ,
      jsPlanetaryRingSpeed (JsVal.fin sunOmega) (JsVal.fin carrierOmega)
          (JsVal.fin sunTeeth) (JsVal.fin 0) = JsVal.posInf ∨
      jsPlanetaryRingSpeed (JsVal.fin sunOmega) (JsVal.fin carrierOmega)
          (JsVal.fin sunTeeth) (JsVal.fin 0) = JsVal.negInf ∨
      jsPlanetaryRingSpeed (JsVal.fin sunOmega) (JsVal.fin carrierOmega)
          (JsVal.fin sunTeeth) (JsVal.fin 0) = JsVal.nan := by
  intro s c st
  have hnum : jsPlanetaryRingSpeed (JsVal.fin s) (JsVal.fin c) (JsVal.fin st)
      (JsVal.fin 0) =
      JsVal.div (JsVal.fin ((st + 0) * c - st * s)) (JsVal.fin 0) := by
    unfold jsPlanetaryRingSpeed
    simp [JsVal.add, JsVal.mul, JsVal.sub]
  rw [hnum]
  exact JsVal.div_fin_zero ((st + 0) * c - st * s)
